import Mathlib

/-!
Verification of the xtreme-downloader download UI and client
(src/frontend/src/pages/Downloads.tsx, src/frontend/src/api/client.ts)
against its specification, plus a spec-modelled chunk planner for the
engine component that has no source under src/.

Conventions of the embedding:
* JS numbers that the code only ever copies, compares or adds as byte
  counts / ids are modelled as `Nat`; `progress_pct` (a JS float that the
  handler copies verbatim and never computes with) is modelled as `Int`.
* Absent JSON fields are `Option.none`; the JS `x ?? y` operator is
  `Option.getD`.
* The JS falsy test `!data.download_id` is true for both `undefined` and
  `0`, which `isFalsyId` reproduces.
-/

/-- Download status, the `status` union of the `Download` interface in
src/frontend/src/api/client.ts. -/
inductive DlStatus
  | queued
  | downloading
  | paused
  | completed
  | failed
  | cancelled
deriving DecidableEq, Repr

/-- A download row, the `Download` interface of client.ts. -/
structure Download where
  id : Nat
  playlist_id : Nat
  content_type : String
  stream_id : String
  title : String
  language : Option String
  file_path : Option String
  status : DlStatus
  progress_pct : Int
  speed_bps : Nat
  total_bytes : Nat
  downloaded_bytes : Nat
  error_message : Option String
  created_at : String
deriving DecidableEq, Repr

/-- A parsed WebSocket message as read by `ws.onmessage` in Downloads.tsx:
the handler looks at `type`, `download_id`, `progress`, `speed_bps`,
`downloaded_bytes`, `total_bytes` and `status`; any of them may be absent. -/
structure ProgressMsg where
  typ : Option String
  download_id : Option Nat
  progress : Option Int
  speed_bps : Option Nat
  downloaded_bytes : Option Nat
  total_bytes : Option Nat
  status : Option DlStatus
deriving DecidableEq, Repr

/-- JS falsiness of `data.download_id`: absent (`undefined`) or `0`. -/
def isFalsyId : Option Nat → Bool
  | none => true
  | some n => n == 0

/-- The terminal-status test of Downloads.tsx line 301:
`data.status === "completed" || data.status === "failed" || data.status === "cancelled"`. -/
def msgIsTerminal : Option DlStatus → Bool
  | some .completed => true
  | some .failed => true
  | some .cancelled => true
  | _ => false

/-- The in-place row patch of Downloads.tsx lines 316–323:
`{ ...dl, progress_pct: data.progress ?? dl.progress_pct, ... }`. -/
def patchRow (msg : ProgressMsg) (dl : Download) : Download :=
  { dl with
    progress_pct := msg.progress.getD dl.progress_pct
    speed_bps := msg.speed_bps.getD dl.speed_bps
    downloaded_bytes := msg.downloaded_bytes.getD dl.downloaded_bytes
    total_bytes := msg.total_bytes.getD dl.total_bytes
    status := msg.status.getD dl.status }

/-- The `setQueryData` updater of Downloads.tsx lines 307–326 applied to a
present cache value: if no row has the message's id the list is returned
unchanged, otherwise the matching rows are patched in place. -/
def setQueryDataPatch (msg : ProgressMsg) (idv : Nat) (old : List Download) :
    List Download :=
  if old.any (fun dl => dl.id == idv) then
    old.map (fun dl => if dl.id == idv then patchRow msg dl else dl)
  else old

/-- What the `ws.onmessage` handler decides to do with a message. -/
inductive HandlerEffect
  | noop
  | invalidateDownloads
  | patchCache (idv : Nat)
deriving DecidableEq, Repr

/-- The branch structure of `ws.onmessage` (Downloads.tsx lines 295–327):
first the heartbeat / missing-id guard, then the terminal-status branch
which only invalidates the query cache, then the in-place patch. -/
def onMessage (msg : ProgressMsg) : HandlerEffect :=
  if isFalsyId msg.download_id || msg.typ == some "heartbeat" then .noop
  else if msgIsTerminal msg.status then .invalidateDownloads
  else .patchCache (msg.download_id.getD 0)

/-- The handler's full effect on the downloads query cache (`none` models
an absent cache entry, which the updater returns unchanged via
`if (!old) return old`).  Invalidation marks the query stale and triggers
a refetch; it performs no in-place modification of the cached rows. -/
def handleMessage (msg : ProgressMsg) (cache : Option (List Download)) :
    HandlerEffect × Option (List Download) :=
  match onMessage msg with
  | .noop => (.noop, cache)
  | .invalidateDownloads => (.invalidateDownloads, cache)
  | .patchCache i => (.patchCache i, cache.map (setQueryDataPatch msg i))

/-- The speed-unit union of Downloads.tsx line 27. -/
inductive SpeedUnit
  | unlimited
  | kbps
  | mbps
deriving DecidableEq, Repr

/-- The `{ value, unit }` result of `bpsToDisplay`. -/
structure SpeedDisplay where
  value : Nat
  unit : SpeedUnit
deriving DecidableEq, Repr

/-- The JS rounding `Math.round (a / b)` for natural `a` and positive natural `b`
(JS rounds halves up, i.e. `⌊a/b + 1/2⌋ = ⌊(2a+b)/(2b)⌋`). -/
def natRound (a b : Nat) : Nat := (2 * a + b) / (2 * b)

/-- Function `bpsToDisplay` of Downloads.tsx lines 29–33. -/
def bpsToDisplay (bps : Nat) : SpeedDisplay :=
  if bps = 0 then ⟨0, .unlimited⟩
  else if bps ≥ 1024 * 1024 then ⟨natRound bps (1024 * 1024), .mbps⟩
  else ⟨natRound bps 1024, .kbps⟩

/-- Function `displayToBps` of Downloads.tsx lines 35–39. -/
def displayToBps (value : Nat) (unit : SpeedUnit) : Nat :=
  match unit with
  | .unlimited => 0
  | .mbps => value * (1024 * 1024)
  | .kbps => value * 1024

/-- The `DownloadSettings` interface of client.ts. -/
structure DownloadSettings where
  max_concurrent_downloads : Nat
  download_chunks : Nat
  speed_limit_bps : Nat
deriving DecidableEq, Repr

/-- The local state of `SettingsPanel` (Downloads.tsx lines 50–53):
`concurrent`, `chunks`, `speedUnit`, `speedValue`. -/
structure PanelState where
  concurrent : Nat
  chunks : Nat
  speedUnit : SpeedUnit
  speedValue : Nat
deriving DecidableEq, Repr

/-- The initial `useState` values of the panel: 3 concurrent, 16 chunks,
unlimited speed. -/
def panelInit : PanelState := ⟨3, 16, .unlimited, 0⟩

/-- The events that mutate the panel state: the three input `onChange`
handlers, the unit `select` handler, and the `useEffect` that syncs the
remotely loaded settings into local state (Downloads.tsx lines 56–64). -/
inductive PanelEvent
  | setConcurrent (v : Nat)
  | setChunks (v : Nat)
  | setSpeedUnit (u : SpeedUnit)
  | setSpeedValue (v : Nat)
  | syncRemote (s : DownloadSettings)

/-- One panel state transition.  `setSpeedValue` applies the code's
`Math.max(1, …)`; `setSpeedUnit` reproduces lines 138–143 (switching to
unlimited zeroes the value, switching away from a zero value seeds it with
10 MB/s or 1024 KB/s); `syncRemote` copies the remote record through
`bpsToDisplay` exactly as the `useEffect` does. -/
def panelStep (st : PanelState) : PanelEvent → PanelState
  | .setConcurrent v => { st with concurrent := v }
  | .setChunks v => { st with chunks := v }
  | .setSpeedUnit u =>
      if u = .unlimited then { st with speedUnit := u, speedValue := 0 }
      else if st.speedValue = 0 then
        { st with speedUnit := u
                  speedValue := if u = .mbps then 10 else 1024 }
      else { st with speedUnit := u }
  | .setSpeedValue v => { st with speedValue := max 1 v }
  | .syncRemote s =>
      { concurrent := s.max_concurrent_downloads
        chunks := s.download_chunks
        speedUnit := (bpsToDisplay s.speed_limit_bps).unit
        speedValue := (bpsToDisplay s.speed_limit_bps).value }

/-- The values a browser range input or the settings sync can feed each
event: the concurrent slider is declared `min={1} max={10}`, the chunks
slider `min={1} max={32}` (Downloads.tsx lines 104–129); the speed number
input and the remote record are unconstrained at event level. -/
def eventWithinInputBounds : PanelEvent → Prop
  | .setConcurrent v => 1 ≤ v ∧ v ≤ 10
  | .setChunks v => 1 ≤ v ∧ v ≤ 32
  | .setSpeedUnit _ => True
  | .setSpeedValue _ => True
  | .syncRemote _ => True

/-- Panel states reachable from the initial state through events that
respect the declared input bounds (remote sync unconstrained). -/
inductive PanelReachable : PanelState → Prop
  | init : PanelReachable panelInit
  | step {st : PanelState} (e : PanelEvent) : PanelReachable st →
      eventWithinInputBounds e → PanelReachable (panelStep st e)

/-- Function `handleSave` (Downloads.tsx lines 75–81): the payload submitted to
`settingsApi.update`. -/
def savedPayload (st : PanelState) : DownloadSettings :=
  ⟨st.concurrent, st.chunks, displayToBps st.speedValue st.speedUnit⟩

/-- The row controls `DownloadRow` can render (Downloads.tsx lines
207–233). -/
inductive RowControl
  | pauseBtn
  | resumeBtn
  | deleteBtn
deriving DecidableEq, Repr

/-- Which controls `DownloadRow` renders for a given status: the pause
button only under `dl.status === "downloading"`, the resume button only
under `dl.status === "paused"`, the delete button always. -/
def renderedControls (st : DlStatus) : List RowControl :=
  (if st = .downloading then [.pauseBtn] else []) ++
    (if st = .paused then [.resumeBtn] else []) ++ [.deleteBtn]

/-- A terminal download status (`completed`, `failed`, `cancelled`). -/
def DlStatus.isTerminal : DlStatus → Bool
  | .completed => true
  | .failed => true
  | .cancelled => true
  | _ => false

/-- The request issued by `downloadsApi.delete` (client.ts lines 224–225):
`DELETE /downloads/{id}` with query parameter `delete_file`. -/
structure DeleteRequest where
  download_id : Nat
  delete_file : Bool
deriving DecidableEq, Repr

/-- The client operation `downloadsApi.delete: (id, deleteFile = false) => api.delete(…,
{ params: { delete_file: deleteFile } })`. -/
def downloadsApiDelete (id : Nat) (deleteFile : Bool := false) :
    DeleteRequest :=
  ⟨id, deleteFile⟩

/-- Handler `handleDelete` in `Downloads` (line 358) calls `downloadsApi.delete(id)`
with the `deleteFile` argument omitted. -/
def handleDeleteRequest (id : Nat) : DeleteRequest :=
  downloadsApiDelete id

/-- A planned chunk: a contiguous byte range, `start` inclusive and `stop`
exclusive. -/
structure ChunkPlan where
  start : Nat
  stop : Nat
deriving DecidableEq, Repr

/-- Modelled from the spec: the download engine's Coordinator (its chunk
planning in particular) is not under src/, so this follows §4.2 of the
spec verbatim: "divide `[0,totalBytes)` into N equal-width contiguous
chunks (N = configured chunk count, default 16; last chunk absorbs the
remainder)".  Each of the N chunks has width `totalBytes / N` rounded
down, except the last, whose end is pinned to `totalBytes`. -/
def planChunks (totalBytes : Nat) (n : Nat) : List ChunkPlan :=
  (List.range n).map fun i =>
    ⟨i * (totalBytes / n),
      if i = n - 1 then totalBytes else (i + 1) * (totalBytes / n)⟩

/-! ## Helper lemmas -/

/-- Rounding an exact multiple recovers the factor. -/
theorem natRound_mul_self (v b : Nat) (hb : 0 < b) : natRound (v * b) b = v := by
  unfold natRound
  have h1 : 2 * (v * b) + b = b + 2 * b * v := by ring
  rw [h1, Nat.add_mul_div_left _ _ (by omega), Nat.div_eq_of_lt (by omega)]
  omega

/-! ## Claim theorems -/

/-- C6: a speed limit of 0 bytes/sec means unlimited: `displayToBps v
unlimited = 0` for every `v`, `bpsToDisplay 0 = { value := 0, unit :=
unlimited }`, and for any unit other than unlimited and any value at least
1, `displayToBps` is strictly positive. -/
theorem speed_zero_means_unlimited :
    (∀ v : Nat, displayToBps v .unlimited = 0) ∧
    bpsToDisplay 0 = ⟨0, .unlimited⟩ ∧
    (∀ (u : SpeedUnit) (v : Nat), u ≠ .unlimited → 1 ≤ v →
      0 < displayToBps v u) := by
  refine ⟨fun v => rfl, rfl, ?_⟩
  intro u v hu hv
  cases u with
  | unlimited => exact absurd rfl hu
  | kbps => simp only [displayToBps]; omega
  | mbps => simp only [displayToBps]; omega

/-- Witness for C6 at unit kbps, value 5. -/
theorem speed_zero_means_unlimited_witness :
    0 < displayToBps 5 SpeedUnit.kbps :=
  speed_zero_means_unlimited.2.2 .kbps 5 (by decide) (by decide)

/-- C8: `DownloadRow` renders the pause button exactly when the row's
status is `downloading` and the resume button exactly when it is `paused`;
in a terminal state neither control exists, so no pause or resume request
can be issued there. -/
theorem pause_resume_only_in_matching_state :
    ∀ st : DlStatus,
      (RowControl.pauseBtn ∈ renderedControls st ↔ st = .downloading) ∧
      (RowControl.resumeBtn ∈ renderedControls st ↔ st = .paused) ∧
      (st.isTerminal = true →
        RowControl.pauseBtn ∉ renderedControls st ∧
        RowControl.resumeBtn ∉ renderedControls st) := by
  intro st
  cases st <;> simp [renderedControls, DlStatus.isTerminal]

/-- Witness for C8 at the terminal status `completed`. -/
theorem pause_resume_only_in_matching_state_witness :
    RowControl.pauseBtn ∉ renderedControls .completed ∧
    RowControl.resumeBtn ∉ renderedControls .completed :=
  (pause_resume_only_in_matching_state .completed).2.2 rfl

/-- C9: file deletion is caller-controlled: `downloadsApi.delete` forwards
its `deleteFile` argument as the `delete_file` request parameter, and a
call that omits it (such as `handleDelete`) sends `delete_file = false`. -/
theorem delete_file_caller_controlled :
    (∀ (id : Nat) (df : Bool), (downloadsApiDelete id df).delete_file = df) ∧
    (∀ id : Nat, downloadsApiDelete id = ⟨id, false⟩) ∧
    (∀ id : Nat, (handleDeleteRequest id).delete_file = false) :=
  ⟨fun _ _ => rfl, fun _ => rfl, fun _ => rfl⟩

/-- C10: the speed-limit unit conversions round-trip: converting `v ≥ 1`
megabytes/sec to bytes/sec and back displays `v` mbps, and converting
`1 ≤ v < 1024` kilobytes/sec to bytes/sec and back displays `v` kbps. -/
theorem speed_display_roundtrip (v : Nat) :
    (1 ≤ v → bpsToDisplay (displayToBps v .mbps) = ⟨v, .mbps⟩) ∧
    (1 ≤ v → v < 1024 → bpsToDisplay (displayToBps v .kbps) = ⟨v, .kbps⟩) := by
  constructor
  · intro hv
    show bpsToDisplay (v * (1024 * 1024)) = ⟨v, .mbps⟩
    unfold bpsToDisplay
    rw [if_neg (by positivity), if_pos (by nlinarith), natRound_mul_self v _ (by norm_num)]
  · intro hv hv'
    show bpsToDisplay (v * 1024) = ⟨v, .kbps⟩
    unfold bpsToDisplay
    rw [if_neg (by positivity), if_neg (by push_neg; nlinarith), natRound_mul_self v _ (by norm_num)]

/-- Witness for C10 at 7 kbps and 3 mbps. -/
theorem speed_display_roundtrip_witness :
    bpsToDisplay (displayToBps 7 .kbps) = ⟨7, .kbps⟩ ∧
    bpsToDisplay (displayToBps 3 .mbps) = ⟨3, .mbps⟩ :=
  ⟨(speed_display_roundtrip 7).2 (by decide) (by decide),
    (speed_display_roundtrip 3).1 (by decide)⟩

/-- C5: a message whose `type` is "heartbeat", or that lacks a
`download_id`, causes no state change: the handler's effect is a no-op and
the downloads query cache is returned untouched. -/
theorem heartbeat_no_state_change (msg : ProgressMsg)
    (cache : Option (List Download))
    (h : msg.download_id = none ∨ msg.typ = some "heartbeat") :
    handleMessage msg cache = (.noop, cache) := by
  have hnoop : onMessage msg = .noop := by
    unfold onMessage
    rcases h with h | h
    · simp [isFalsyId, h]
    · simp [h]
  simp [handleMessage, hnoop]

/-- A heartbeat message (it even carries a `download_id` and a byte
count, which the guard must ignore). -/
def hbMsg : ProgressMsg := ⟨some "heartbeat", some 3, none, none, some 10, none, none⟩

/-- Witness for C5 on a concrete heartbeat message and empty cache. -/
theorem heartbeat_no_state_change_witness :
    handleMessage hbMsg (some []) = (.noop, some []) :=
  heartbeat_no_state_change hbMsg (some []) (Or.inr rfl)

/-- C4: a progress message (non-heartbeat, carrying a truthy
`download_id`) whose status is terminal makes the handler invalidate the
downloads query cache — triggering a refetch — and perform no in-place
patch: the cached rows are returned exactly as they were. -/
theorem terminal_status_invalidates (msg : ProgressMsg)
    (cache : Option (List Download)) (i : Nat) (s : DlStatus)
    (hid : msg.download_id = some i) (hi : i ≠ 0)
    (hhb : msg.typ ≠ some "heartbeat")
    (hs : msg.status = some s) (hterm : s.isTerminal = true) :
    handleMessage msg cache = (.invalidateDownloads, cache) := by
  have hguard : (isFalsyId msg.download_id || msg.typ == some "heartbeat") = false := by
    simp [isFalsyId, hid, hi, hhb]
  have hterm' : msgIsTerminal msg.status = true := by
    rw [hs]; cases s <;> simp_all [DlStatus.isTerminal, msgIsTerminal]
  have heff : onMessage msg = .invalidateDownloads := by
    unfold onMessage
    rw [hguard, if_neg (by simp), if_pos hterm']
  simp [handleMessage, heff]

/-- A final snapshot message carrying the terminal status `completed`. -/
def termMsg : ProgressMsg := ⟨none, some 2, some 100, none, some 900, some 900, some .completed⟩

/-- Witness for C4 on a concrete terminal snapshot and empty cache. -/
theorem terminal_status_invalidates_witness :
    handleMessage termMsg (some []) = (.invalidateDownloads, some []) :=
  terminal_status_invalidates termMsg (some []) 2 .completed rfl
    (by decide) (by decide) rfl rfl

/-- The per-row frame relation of the in-place patch: adapted from the
`old.map` body of Downloads.tsx lines 314–325 — non-matching rows are
untouched, a matching row gets exactly the five message fields (each
falling back to its previous value when absent, `status` in particular)
and keeps every other field. -/
def patchFrameRel (msg : ProgressMsg) (i : Nat) (dl dl' : Download) : Prop :=
  (dl.id ≠ i → dl' = dl) ∧
  (dl.id = i →
    dl'.id = dl.id ∧ dl'.playlist_id = dl.playlist_id ∧
    dl'.content_type = dl.content_type ∧ dl'.stream_id = dl.stream_id ∧
    dl'.title = dl.title ∧ dl'.language = dl.language ∧
    dl'.file_path = dl.file_path ∧ dl'.error_message = dl.error_message ∧
    dl'.created_at = dl.created_at ∧
    dl'.progress_pct = msg.progress.getD dl.progress_pct ∧
    dl'.speed_bps = msg.speed_bps.getD dl.speed_bps ∧
    dl'.downloaded_bytes = msg.downloaded_bytes.getD dl.downloaded_bytes ∧
    dl'.total_bytes = msg.total_bytes.getD dl.total_bytes ∧
    dl'.status = msg.status.getD dl.status ∧
    (msg.status = none → dl'.status = dl.status))

/-- C3: a non-heartbeat, non-terminal progress message makes the handler
patch the cache in place, and the patch updates only the fields present in
the message, leaves every absent field (status in particular) at its
previous value, and leaves every row with a different id unchanged. -/
theorem patch_only_present_fields (msg : ProgressMsg) (i : Nat)
    (old : List Download) (h : onMessage msg = .patchCache i) :
    (handleMessage msg (some old)).2 = some (setQueryDataPatch msg i old) ∧
    List.Forall₂ (patchFrameRel msg i) old (setQueryDataPatch msg i old) := by
  refine ⟨by simp [handleMessage, h], ?_⟩
  unfold setQueryDataPatch
  by_cases hfound : old.any (fun dl => dl.id == i)
  · rw [if_pos hfound, List.forall₂_map_right_iff, List.forall₂_same]
    intro dl _
    constructor
    · intro hne
      simp [hne]
    · intro heq
      have hc : (dl.id == i) = true := by simp [heq]
      rw [hc]
      refine ⟨rfl, rfl, rfl, rfl, rfl, rfl, rfl, rfl, rfl, rfl, rfl, rfl, rfl, rfl, ?_⟩
      intro hnone
      simp [patchRow, hnone]
  · rw [if_neg hfound, List.forall₂_same]
    intro dl hdl
    refine ⟨fun _ => rfl, fun heq => ?_⟩
    exact absurd (List.any_eq_true.mpr ⟨dl, hdl, by simp [heq]⟩) hfound

/-- A pure progress message: no `status`, no `type`, id 1. -/
def progMsg : ProgressMsg := ⟨none, some 1, some 42, some 500, some 100, some 1000, none⟩

/-- A cached row currently downloading. -/
def row1 : Download :=
  ⟨1, 7, "movie", "s1", "Title", none, none, .downloading, 10, 0, 1000, 50, none, "2024"⟩

/-- Witness for C3 on a concrete message and one-row cache. -/
theorem patch_only_present_fields_witness :
    (handleMessage progMsg (some [row1])).2 =
      some (setQueryDataPatch progMsg 1 [row1]) :=
  (patch_only_present_fields progMsg 1 [row1] (by decide)).1

/-- A progress message whose `downloaded_bytes` is smaller than the cached
row's current value: the handler applies it verbatim. -/
def shrinkMsg : ProgressMsg := ⟨none, some 1, none, none, some 40, none, none⟩

/-- A cached row that has already downloaded 100 of 1000 bytes. -/
def row100 : Download :=
  ⟨1, 7, "movie", "s1", "Title", none, none, .downloading, 10, 0, 1000, 100, none, "2024"⟩

/-- C1 counterexample: the subscriber's patch does not keep
`downloaded_bytes` non-decreasing — a message carrying a smaller value is
copied into the row as-is, so the patched row's `downloaded_bytes` drops
from 100 to 40. -/
theorem downloaded_bytes_monotone_counterexample :
    onMessage shrinkMsg = .patchCache 1 ∧
    (handleMessage shrinkMsg (some [row100])).2 =
      some [patchRow shrinkMsg row100] ∧
    (patchRow shrinkMsg row100).downloaded_bytes < row100.downloaded_bytes := by
  refine ⟨by decide, by decide, by decide⟩

/-- The monotonicity-and-bound relation on a row before/after an update. -/
def bytesMonotoneRel (dl dl' : Download) : Prop :=
  dl.downloaded_bytes ≤ dl'.downloaded_bytes ∧
  (0 < dl'.total_bytes → dl'.downloaded_bytes ≤ dl'.total_bytes)

/-- C1 amended: the patch copies the message's `downloaded_bytes` (keeping
the old value when absent), so it preserves "non-decreasing and at most
`total_bytes` (the latter taken as known when positive)" exactly when the
incoming message's values already satisfy those bounds relative to the
row; the patch itself enforces nothing. -/
theorem downloaded_bytes_monotone_amended (msg : ProgressMsg) (i : Nat)
    (old : List Download)
    (h : onMessage msg = .patchCache i)
    (hold : ∀ dl ∈ old, 0 < dl.total_bytes →
      dl.downloaded_bytes ≤ dl.total_bytes)
    (hmono : ∀ dl ∈ old, dl.id = i →
      dl.downloaded_bytes ≤ msg.downloaded_bytes.getD dl.downloaded_bytes)
    (hbound : ∀ dl ∈ old, dl.id = i →
      0 < msg.total_bytes.getD dl.total_bytes →
      msg.downloaded_bytes.getD dl.downloaded_bytes ≤
        msg.total_bytes.getD dl.total_bytes) :
    (handleMessage msg (some old)).2 = some (setQueryDataPatch msg i old) ∧
    List.Forall₂ bytesMonotoneRel old (setQueryDataPatch msg i old) := by
  refine ⟨by simp [handleMessage, h], ?_⟩
  unfold setQueryDataPatch
  by_cases hfound : old.any (fun dl => dl.id == i)
  · rw [if_pos hfound, List.forall₂_map_right_iff, List.forall₂_same]
    intro dl hdl
    by_cases heq : dl.id = i
    · have hc : (dl.id == i) = true := by simp [heq]
      rw [hc]
      exact ⟨hmono dl hdl heq, hbound dl hdl heq⟩
    · simp only [show (dl.id == i) = false by simp [heq], Bool.false_eq_true,
        if_false]
      exact ⟨le_refl _, hold dl hdl⟩
  · rw [if_neg hfound, List.forall₂_same]
    intro dl hdl
    exact ⟨le_refl _, hold dl hdl⟩

/-- A progress message growing the downloaded byte count to 200 of 1000. -/
def growMsg : ProgressMsg := ⟨none, some 1, some 20, some 99, some 200, some 1000, none⟩

/-- Witness for the amended C1 on a concrete message and one-row cache. -/
theorem downloaded_bytes_monotone_amended_witness :
    (handleMessage growMsg (some [row100])).2 =
      some (setQueryDataPatch growMsg 1 [row100]) ∧
    List.Forall₂ bytesMonotoneRel [row100] (setQueryDataPatch growMsg 1 [row100]) :=
  downloaded_bytes_monotone_amended growMsg 1 [row100] (by decide)
    (by intro dl hdl; rw [List.mem_singleton] at hdl; subst hdl; decide)
    (by intro dl hdl; rw [List.mem_singleton] at hdl; subst hdl; intro _; decide)
    (by intro dl hdl; rw [List.mem_singleton] at hdl; subst hdl; intro _; decide)

/-- A remote settings record outside the panel's own slider bounds. -/
def badRemote : DownloadSettings := ⟨11, 16, 0⟩

/-- C7 counterexample: the `useEffect` sync copies the remote record into
local state unvalidated, so after syncing a record with
`max_concurrent_downloads = 11` the panel is in a reachable state whose
Save payload carries 11 > 10. -/
theorem settings_bounds_counterexample :
    PanelReachable (panelStep panelInit (.syncRemote badRemote)) ∧
    (savedPayload (panelStep panelInit (.syncRemote badRemote))).max_concurrent_downloads = 11 :=
  ⟨PanelReachable.step _ PanelReachable.init trivial, rfl⟩

/-- The additional restriction the counterexample forces: any remote
record synced into the panel must itself respect the slider bounds. -/
def eventRespectsRemoteBounds : PanelEvent → Prop
  | .syncRemote s =>
      1 ≤ s.max_concurrent_downloads ∧ s.max_concurrent_downloads ≤ 10 ∧
      1 ≤ s.download_chunks ∧ s.download_chunks ≤ 32
  | _ => True

/-- Panel states reachable when, additionally, every synced remote record
is within the configuration bounds. -/
inductive PanelReachableBounded : PanelState → Prop
  | init : PanelReachableBounded panelInit
  | step {st : PanelState} (e : PanelEvent) : PanelReachableBounded st →
      eventWithinInputBounds e → eventRespectsRemoteBounds e →
      PanelReachableBounded (panelStep st e)

/-- Function `displayToBps` never lands strictly between 0 and 1024. -/
theorem displayToBps_zero_or_ge (v : Nat) (u : SpeedUnit) :
    displayToBps v u = 0 ∨ 1024 ≤ displayToBps v u := by
  cases u <;> simp only [displayToBps] <;> norm_num <;> omega

/-- C7 amended: every payload the panel can submit has `speed_limit_bps`
either exactly 0 or at least 1024, unconditionally; and provided every
remote settings record synced into the panel already satisfies the bounds,
`max_concurrent_downloads` stays in [1,10] and `download_chunks` in
[1,32]. -/
theorem settings_bounds_amended (st : PanelState)
    (h : PanelReachableBounded st) :
    1 ≤ (savedPayload st).max_concurrent_downloads ∧
    (savedPayload st).max_concurrent_downloads ≤ 10 ∧
    1 ≤ (savedPayload st).download_chunks ∧
    (savedPayload st).download_chunks ≤ 32 ∧
    ((savedPayload st).speed_limit_bps = 0 ∨
      1024 ≤ (savedPayload st).speed_limit_bps) := by
  have hinv : 1 ≤ st.concurrent ∧ st.concurrent ≤ 10 ∧
      1 ≤ st.chunks ∧ st.chunks ≤ 32 := by
    induction h with
    | init => exact ⟨by decide, by decide, by decide, by decide⟩
    | step e _ hb1 hb2 ih =>
      cases e with
      | setConcurrent v =>
          exact ⟨hb1.1, hb1.2, ih.2.2.1, ih.2.2.2⟩
      | setChunks v =>
          exact ⟨ih.1, ih.2.1, hb1.1, hb1.2⟩
      | setSpeedUnit u =>
          simp only [panelStep]
          split <;> [skip; split] <;> exact ih
      | setSpeedValue v =>
          exact ih
      | syncRemote s =>
          exact ⟨hb2.1, hb2.2.1, hb2.2.2.1, hb2.2.2.2⟩
  exact ⟨hinv.1, hinv.2.1, hinv.2.2.1, hinv.2.2.2,
    displayToBps_zero_or_ge st.speedValue st.speedUnit⟩

/-- Witness for the amended C7 at the initial panel state. -/
theorem settings_bounds_amended_witness :
    1 ≤ (savedPayload panelInit).max_concurrent_downloads ∧
    (savedPayload panelInit).max_concurrent_downloads ≤ 10 ∧
    1 ≤ (savedPayload panelInit).download_chunks ∧
    (savedPayload panelInit).download_chunks ≤ 32 ∧
    ((savedPayload panelInit).speed_limit_bps = 0 ∨
      1024 ≤ (savedPayload panelInit).speed_limit_bps) :=
  settings_bounds_amended panelInit PanelReachableBounded.init

/-- The planner always produces exactly `n` plans. -/
theorem planChunks_length (S n : Nat) : (planChunks S n).length = n := by
  simp [planChunks]

/-- The `k`-th plan in closed form. -/
theorem planChunks_get (S n k : Nat) (h : k < (planChunks S n).length) :
    (planChunks S n).get ⟨k, h⟩ =
      ⟨k * (S / n), if k = n - 1 then S else (k + 1) * (S / n)⟩ := by
  simp [planChunks]

/-- Membership characterization of the planner's output. -/
theorem planChunks_mem (S n : Nat) (p : ChunkPlan) :
    p ∈ planChunks S n ↔ ∃ i, i < n ∧
      p = ⟨i * (S / n), if i = n - 1 then S else (i + 1) * (S / n)⟩ := by
  simp only [planChunks, List.mem_map, List.mem_range]
  constructor
  · rintro ⟨i, hi, rfl⟩; exact ⟨i, hi, rfl⟩
  · rintro ⟨i, hi, rfl⟩; exact ⟨i, hi, rfl⟩

/-- C2: for a resource of known size `S` and requested chunk count
`N ≥ 1`, the planner produces exactly `N` plans whose ranges start at 0,
end at `S`, are contiguous (each chunk's end is the next chunk's start,
the last absorbing the remainder), well-formed, pairwise disjoint, and
union to exactly `[0, S)`. -/
theorem chunk_plan_partition (S N : Nat) (hN : 1 ≤ N) :
    (planChunks S N).length = N ∧
    ((planChunks S N).get ⟨0, by rw [planChunks_length]; omega⟩).start = 0 ∧
    ((planChunks S N).get ⟨N - 1, by rw [planChunks_length]; omega⟩).stop = S ∧
    (∀ (j : Fin (planChunks S N).length)
        (hj : j.val + 1 < (planChunks S N).length),
      ((planChunks S N).get j).stop =
        ((planChunks S N).get ⟨j.val + 1, hj⟩).start) ∧
    (∀ p ∈ planChunks S N, p.start ≤ p.stop) ∧
    (∀ j k : Fin (planChunks S N).length, j.val < k.val →
      ((planChunks S N).get j).stop ≤ ((planChunks S N).get k).start) ∧
    (∀ x : Nat, x < S ↔ ∃ p ∈ planChunks S N, p.start ≤ x ∧ x < p.stop) := by
  have hNw : N * (S / N) ≤ S := by
    rw [Nat.mul_comm]; exact Nat.div_mul_le_self S N
  refine ⟨planChunks_length S N, ?_, ?_, ?_, ?_, ?_, ?_⟩
  · rw [planChunks_get]; simp
  · rw [planChunks_get]; simp
  · rintro ⟨jv, hjv⟩ hj
    have hj2 : jv + 1 < N := by simpa [planChunks_length] using hj
    rw [planChunks_get, planChunks_get]
    have : jv ≠ N - 1 := by omega
    simp [this]
  · intro p hp
    rw [planChunks_mem] at hp
    obtain ⟨i, hi, rfl⟩ := hp
    by_cases hlast : i = N - 1
    · simp only [hlast, if_pos rfl]
      calc (N - 1) * (S / N) ≤ N * (S / N) :=
            Nat.mul_le_mul_right _ (Nat.sub_le N 1)
        _ ≤ S := hNw
    · simp only [if_neg hlast]
      exact Nat.mul_le_mul_right _ (Nat.le_succ i)
  · rintro ⟨jv, hjv⟩ ⟨kv, hkv⟩ hjk
    have hjk2 : jv < kv := hjk
    have hk2 : kv < N := by simpa [planChunks_length] using hkv
    rw [planChunks_get, planChunks_get]
    have hjne : jv ≠ N - 1 := by omega
    simp only [if_neg hjne]
    exact Nat.mul_le_mul_right _ (by omega)
  · intro x
    constructor
    · intro hx
      by_cases hw0 : S / N = 0
      · refine ⟨⟨(N - 1) * (S / N), S⟩, ?_, ?_, hx⟩
        · rw [planChunks_mem]
          exact ⟨N - 1, by omega, by simp⟩
        · rw [hw0, Nat.mul_zero]
          exact Nat.zero_le x
      · have hw : 0 < S / N := Nat.pos_of_ne_zero hw0
        by_cases hbig : N - 1 ≤ x / (S / N)
        · refine ⟨⟨(N - 1) * (S / N), S⟩, ?_, ?_, hx⟩
          · rw [planChunks_mem]
            exact ⟨N - 1, by omega, by simp⟩
          · calc (N - 1) * (S / N) ≤ x / (S / N) * (S / N) :=
                  Nat.mul_le_mul_right _ hbig
              _ ≤ x := Nat.div_mul_le_self x (S / N)
        · push_neg at hbig
          refine ⟨⟨x / (S / N) * (S / N), (x / (S / N) + 1) * (S / N)⟩,
            ?_, Nat.div_mul_le_self x (S / N), ?_⟩
          · rw [planChunks_mem]
            exact ⟨x / (S / N), by omega, by simp [show x / (S / N) ≠ N - 1 by omega]⟩
          · calc x = S / N * (x / (S / N)) + x % (S / N) :=
                  (Nat.div_add_mod x (S / N)).symm
              _ < S / N * (x / (S / N)) + S / N := by
                  have := Nat.mod_lt x hw
                  omega
              _ = (x / (S / N) + 1) * (S / N) := by ring
    · rintro ⟨p, hp, hpx1, hpx2⟩
      rw [planChunks_mem] at hp
      obtain ⟨i, hi, rfl⟩ := hp
      by_cases hlast : i = N - 1
      · simpa only [hlast, if_pos rfl] using hpx2
      · simp only [if_neg hlast] at hpx2
        calc x < (i + 1) * (S / N) := hpx2
          _ ≤ N * (S / N) := Nat.mul_le_mul_right _ (by omega)
          _ ≤ S := hNw

/-- Witness for C2 at a 10-byte resource split into 4 chunks. -/
theorem chunk_plan_partition_witness : (planChunks 10 4).length = 4 :=
  (chunk_plan_partition 10 4 (by decide)).1
